import Mathlib

/-!
# kolide `serve` command: access-control middleware, route table, lifecycle

A shallow embedding of `cli/serve.go`:

* `accessControl` (serve.go 102-115) over a state-passing model of
  `http.ResponseWriter`;
* the four `http.Handle` registrations (serve.go 81-84) over a model of the
  `net/http` `ServeMux` they are made on;
* the body of `Run` (serve.go 33-98) as a step function over the interleavings
  of the main goroutine, the listener goroutine and the signal goroutine.
-/

namespace Serve

/-! ## Response headers (`net/http` `Header`, a `map[string][]string`) -/

/-- A Go `http.Header`: a finite map from keys to value lists; `none` is an absent key. -/
abbrev Header := String → Option (List String)

/-- The byte test `validHeaderFieldByte` of `net/textproto`: the token characters of RFC 7230. -/
def validHeaderFieldByte (c : Char) : Bool :=
  c.isAlphanum ||
    [33, 35, 36, 37, 38, 39, 42, 43, 45, 46, 94, 95, 96, 124, 126].contains c.toNat

/-- The casing loop of `canonicalMIMEHeaderKey`: upper case at the start and after a dash,
lower case elsewhere. `upper` is the flag carried by the loop. -/
def canonicalCase : Bool → List Char → List Char
  | _, [] => []
  | upper, c :: cs =>
      (if upper then c.toUpper else c.toLower) :: canonicalCase (c == '-') cs

/-- The function `textproto.CanonicalMIMEHeaderKey`: a key with a byte outside the token set is
returned as it is, any other key is re-cased. -/
def CanonicalMIMEHeaderKey (s : String) : String :=
  if s.data.all validHeaderFieldByte then String.mk (canonicalCase true s.data) else s

/-- The method `Header.Set`: the canonical key is bound to the one-element list `[value]`,
replacing whatever was bound to it. -/
def Header.Set (h : Header) (key value : String) : Header :=
  fun k => if k = CanonicalMIMEHeaderKey key then some [value] else h k

/-! ## Requests, response writers, handlers -/

/-- The fields of `*http.Request` read by the code: `Method`, `Host` and `URL.Path`.
A path is a list of characters because the mux slices it. -/
structure Request where
  Method : String
  Host : List Char
  Path : List Char
deriving DecidableEq, Repr

/-- The observable state behind an `http.ResponseWriter`: the header map returned by
`Header()`, the status given to `WriteHeader` (if any) and the bytes given to `Write`. -/
structure ResponseWriter where
  header : Header
  status : Option Nat
  body : List Char

/-- A response in flight together with a ghost log of the calls made to the wrapped handler:
each entry is the request and the response state the handler was called with. -/
structure Conn where
  w : ResponseWriter
  calls : List (Request × ResponseWriter)

/-- An `http.Handler`, as the effect of its `ServeHTTP` on the response state. -/
abbrev Handler := ResponseWriter → Request → ResponseWriter

/-- The statement `w.Header().Set(key, value)`. -/
def ResponseWriter.setHeader (w : ResponseWriter) (key value : String) : ResponseWriter :=
  { w with header := w.header.Set key value }

/-- The call `h.ServeHTTP(w, r)` on a connection: the handler runs on the current response
state and the call is appended to the ghost log. -/
def ServeHTTP (h : Handler) (c : Conn) (r : Request) : Conn :=
  { w := h c.w r, calls := c.calls ++ [(r, c.w)] }

/-- The response state after the three `Set` statements of `accessControl` (serve.go 105-107). -/
def corsHeaders (w : ResponseWriter) : ResponseWriter :=
  ((w.setHeader "Access-Control-Allow-Origin" "*").setHeader
      "Access-Control-Allow-Methods" "GET, POST, OPTIONS").setHeader
    "Access-Control-Allow-Headers" "Origin, Content-Type"

/-- The function `accessControl` (serve.go 103-115): three header assignments, an early
return for the method `OPTIONS`, and otherwise one call of the wrapped handler. -/
def accessControl (h : Handler) (c : Conn) (r : Request) : Conn :=
  let c1 : Conn := { c with w := c.w.setHeader "Access-Control-Allow-Origin" "*" }
  let c2 : Conn := { c1 with w := c1.w.setHeader "Access-Control-Allow-Methods" "GET, POST, OPTIONS" }
  let c3 : Conn := { c2 with w := c2.w.setHeader "Access-Control-Allow-Headers" "Origin, Content-Type" }
  if r.Method = "OPTIONS" then c3 else ServeHTTP h c3 r

/-- The three header keys written by `accessControl`. -/
def corsKeys : List String :=
  ["Access-Control-Allow-Origin", "Access-Control-Allow-Methods", "Access-Control-Allow-Headers"]

/-- A spy handler: it writes status 200 and a one-byte body. -/
def spyHandler : Handler := fun w _ => { w with status := some 200, body := w.body ++ ['x'] }

/-- A response on which nothing has been written and an empty call log. -/
def freshConn : Conn := { w := { header := fun _ => none, status := none, body := [] }, calls := [] }

/-! ## The route table (`net/http` `ServeMux`)

`http.Handle` registers on `http.DefaultServeMux`, and `http.ListenAndServe(addr, nil)` serves
with it, so the dispatch of the serve command is the one of the standard library mux. The
definitions below follow `net/http/server.go` of the Go releases the program was written for:
`Handle`, `pathMatch`, `match`, `cleanPath`, `handler` and `Handler`. Three points of it matter
here, all three part of the documented behaviour of `ServeMux`:

* a second registration of a pattern panics (`multiple registrations`);
* registering `/tree/` makes the mux answer `/tree` with a permanent redirect to `/tree/`;
* a request whose path is not in cleaned form (a `.` or `..` element, a repeated slash) is
  answered with a permanent redirect to the cleaned path.

Dispatch is `ServeMux.Handler`; the request-URI `*` that `ServeMux.ServeHTTP` rejects before it
has no path and is outside what is stated here.
-/

/-- What a mux lookup can return: a handler given to `Handle`, the handler made by
`RedirectHandler(url, code)` (the URL is kept as its path), or `NotFoundHandler()`. -/
inductive MuxHandler (H : Type) where
  | user (h : H)
  | redirect (url : List Char) (code : Nat)
  | notFound
deriving DecidableEq, Repr

/-- The struct `muxEntry` of `net/http`. -/
structure muxEntry (H : Type) where
  explicit : Bool
  h : MuxHandler H
  pattern : List Char
deriving DecidableEq, Repr

/-- The struct `ServeMux` of `net/http`: the map `m` from patterns to entries, kept as an
association list with one binding per key, and the flag `hosts`. -/
structure ServeMux (H : Type) where
  m : List (List Char × muxEntry H)
  hosts : Bool
deriving DecidableEq, Repr

/-- The empty mux, the state of `http.DefaultServeMux` before any registration. -/
def NewServeMux (H : Type) : ServeMux H := { m := [], hosts := false }

/-- Map read `m[key]`: `none` stands for the zero entry of an absent key. -/
def mapGet {H : Type} : List (List Char × muxEntry H) → List Char → Option (muxEntry H)
  | [], _ => none
  | (k, v) :: rest, key => if k = key then some v else mapGet rest key

/-- Map write `m[key] = e`: the binding of `key` is replaced, or added when there is none. -/
def mapSet {H : Type} : List (List Char × muxEntry H) → List Char → muxEntry H →
    List (List Char × muxEntry H)
  | [], key, e => [(key, e)]
  | (k, v) :: rest, key, e => if k = key then (k, e) :: rest else (k, v) :: mapSet rest key e

/-- The test `m[key].explicit`, false for an absent key. -/
def isExplicit {H : Type} (m : List (List Char × muxEntry H)) (key : List Char) : Bool :=
  match mapGet m key with
  | some e => e.explicit
  | none => false

/-- The constant `http.StatusMovedPermanently`. -/
def StatusMovedPermanently : Nat := 301

/-- The method `ServeMux.Handle`. A panic is an `Except.error` carrying its message; a nil
handler is `none`. For a pattern that ends in a slash an implicit redirect is bound to the
pattern without the slash, unless that one is registered explicitly. -/
def ServeMux.Handle {H : Type} (mux : ServeMux H) (pattern : List Char) (handler : Option H) :
    Except String (ServeMux H) :=
  if pattern = [] then .error ("http: invalid pattern " ++ String.mk pattern)
  else
    match handler with
    | none => .error "http: nil handler"
    | some h =>
      if isExplicit mux.m pattern then
        .error ("http: multiple registrations for " ++ String.mk pattern)
      else
        let m1 := mapSet mux.m pattern { explicit := true, h := .user h, pattern := pattern }
        let hosts1 := if pattern.head? ≠ some '/' then true else mux.hosts
        let m2 :=
          if pattern.getLast? = some '/' ∧ ¬ isExplicit m1 pattern.dropLast then
            let path := if pattern.head? ≠ some '/' then pattern.dropWhile (· ≠ '/') else pattern
            mapSet m1 pattern.dropLast
              { explicit := false, h := .redirect path StatusMovedPermanently, pattern := pattern }
          else m1
        .ok { m := m2, hosts := hosts1 }

/-- The function `pathMatch`: a pattern that does not end in a slash matches only itself, a
pattern that ends in a slash matches every path it is a prefix of. -/
def pathMatch (pattern path : List Char) : Bool :=
  if pattern.length = 0 then false
  else if pattern.getLast? ≠ some '/' then pattern == path
  else decide (path.length ≥ pattern.length) && path.take pattern.length == pattern

/-- The loop of `ServeMux.match` over the entries of the map: the state is the length `n` of
the best pattern so far, the handler `h` (`none` is nil) and its pattern. -/
def matchLoop {H : Type} (path : List Char) :
    List (List Char × muxEntry H) → Nat × Option (MuxHandler H) × List Char →
      Nat × Option (MuxHandler H) × List Char
  | [], acc => acc
  | (k, v) :: rest, (n, h, pattern) =>
      if ¬ pathMatch k path then matchLoop path rest (n, h, pattern)
      else if h.isNone ∨ k.length > n then matchLoop path rest (k.length, some v.h, v.pattern)
      else matchLoop path rest (n, h, pattern)

/-- The method `ServeMux.match`: the handler and pattern of the longest matching pattern. -/
def ServeMux.muxMatch {H : Type} (mux : ServeMux H) (path : List Char) :
    Option (MuxHandler H) × List Char :=
  (matchLoop path mux.m (0, none, [])).2

/-- Split a path at every slash. -/
def splitSlash : List Char → List (List Char)
  | [] => [[]]
  | c :: cs =>
      if c = '/' then [] :: splitSlash cs
      else
        match splitSlash cs with
        | [] => [[c]]
        | s :: ss => (c :: s) :: ss

/-- The element loop of `path.Clean` on a rooted path, over the elements between slashes: an
empty element and `.` are dropped, `..` removes the last kept element (nothing at the root),
any other element is kept. The kept elements are held last first. -/
def cleanElems : List (List Char) → List (List Char) → List (List Char)
  | [], out => out
  | e :: es, out =>
      if e = [] ∨ e = ['.'] then cleanElems es out
      else if e = ['.', '.'] then cleanElems es out.tail
      else cleanElems es (e :: out)

/-- The function `path.Clean` on the rooted paths that `cleanPath` passes to it: the slash, then
the kept elements joined by single slashes. -/
def Clean (p : List Char) : List Char :=
  '/' :: List.intercalate ['/'] (cleanElems (splitSlash p.tail) []).reverse

/-- The function `cleanPath` of `net/http`. -/
def cleanPath (p : List Char) : List Char :=
  if p = [] then ['/']
  else
    let p1 := if p.head? ≠ some '/' then '/' :: p else p
    let np := Clean p1
    if p1.getLast? = some '/' ∧ np ≠ ['/'] then np ++ ['/'] else np

/-- The method `ServeMux.handler`: a host-specific match when the mux has host patterns, then a
match on the path alone, then `NotFoundHandler()` with the empty pattern. -/
def ServeMux.handler {H : Type} (mux : ServeMux H) (host path : List Char) :
    MuxHandler H × List Char :=
  let r1 : Option (MuxHandler H) × List Char :=
    if mux.hosts then mux.muxMatch (host ++ path) else (none, [])
  let r2 := if r1.1.isNone then mux.muxMatch path else r1
  match r2 with
  | (none, _) => (.notFound, [])
  | (some h, pattern) => (h, pattern)

/-- The method `ServeMux.Handler`: unless the method is `CONNECT`, a path that differs from its
cleaned form is answered by a permanent redirect to the cleaned path; any other request goes
to `handler`. -/
def ServeMux.Handler {H : Type} (mux : ServeMux H) (r : Request) : MuxHandler H × List Char :=
  if r.Method ≠ "CONNECT" ∧ cleanPath r.Path ≠ r.Path then
    (.redirect (cleanPath r.Path) StatusMovedPermanently, (mux.handler r.Host (cleanPath r.Path)).2)
  else mux.handler r.Host r.Path

/-- The four handlers the serve command registers: `accessControl(apiHandler)`,
`version.Handler()`, `server.ServeStaticAssets("/assets/")` and `server.ServeFrontend()`. -/
inductive Route where
  | api
  | version
  | assets
  | frontend
deriving DecidableEq, Repr

/-- The four `http.Handle` calls of the serve command (serve.go 81-84), in order, on a mux. -/
def registerRoutes (mux : ServeMux Route) : Except String (ServeMux Route) := do
  let m1 ← mux.Handle "/api/".data (some Route.api)
  let m2 ← m1.Handle "/version".data (some Route.version)
  let m3 ← m2.Handle "/assets/".data (some Route.assets)
  m3.Handle "/".data (some Route.frontend)

/-- The route table of the serve command as `registerRoutes` leaves it on the empty mux. -/
def serveTable : ServeMux Route :=
  { m := [("/api/".data, { explicit := true, h := .user .api, pattern := "/api/".data }),
          ("/api".data,
            { explicit := false, h := .redirect "/api/".data 301, pattern := "/api/".data }),
          ("/version".data, { explicit := true, h := .user .version, pattern := "/version".data }),
          ("/assets/".data, { explicit := true, h := .user .assets, pattern := "/assets/".data }),
          ("/assets".data,
            { explicit := false, h := .redirect "/assets/".data 301, pattern := "/assets/".data }),
          ("/".data, { explicit := true, h := .user .frontend, pattern := "/".data }),
          ([], { explicit := false, h := .redirect "/".data 301, pattern := "/".data })],
    hosts := false }

/-- The sub-handlers supplied by the collaborators (`server.MakeHandler`, `version.Handler`,
`server.ServeStaticAssets`, `server.ServeFrontend`). -/
structure Handlers where
  apiHandler : Handler
  versionHandler : Handler
  staticHandler : Handler
  frontendHandler : Handler

/-- What a registered route does with a request: the API route runs
`accessControl(apiHandler)`, every other route calls its handler directly. -/
def Route.serve (hs : Handlers) : Route → Conn → Request → Conn
  | .api, c, r => accessControl hs.apiHandler c r
  | .version, c, r => { c with w := hs.versionHandler c.w r }
  | .assets, c, r => { c with w := hs.staticHandler c.w r }
  | .frontend, c, r => { c with w := hs.frontendHandler c.w r }

/-- The handler and pattern that the mux selects for a request once the serve command has made
its four registrations on the empty default mux; an error is a panic of a registration. -/
def dispatch (r : Request) : Except String (MuxHandler Route × List Char) :=
  (registerRoutes (NewServeMux Route)).map fun mux => mux.Handler r

/-! ## The body of `Run`: main goroutine, listener goroutine, signal goroutine

The three goroutines are interleaved one statement at a time. The channel `errs` is its buffer
(a queue of capacity 2): a send needs room, a receive needs a value. What lies outside the
program is an event: the return of `http.ListenAndServe` and the delivery of `SIGINT`. The end
of the process after `Run` has returned belongs to the caller and is not a step here; the
properties below are invariants of all interleavings, with or without it.
-/

/-- The results of the collaborators that `Run` branches on: the error of `datastore.New`
(serve.go 46) and the error of `svc.NewUser` (serve.go 71); `none` is a nil error. -/
structure Env where
  datastoreErr : Option String
  newUserErr : Option String
deriving DecidableEq, Repr

/-- The program points of the main goroutine: before `datastore.New` (`start`), before the
bootstrap block (`bootstrap`), before the registrations (`register`), before
`make(chan error, 2)` (`mkErrs`), before each `go` statement, before the receive of line 97
(`recvErrs`), after it (`returned`); `exited` is a process ended by `initFatal`, `panicked` one
ended by a panic of `http.Handle`. -/
inductive MainPc where
  | start
  | bootstrap
  | register
  | mkErrs
  | goListener
  | goSignal
  | recvErrs
  | returned
  | exited
  | panicked
deriving DecidableEq, Repr

/-- The program points of the listener goroutine (serve.go 87-90): not yet started, before the
log statement, inside `http.ListenAndServe`, holding its result before the send on `errs`, and
finished. -/
inductive ListenerPc where
  | notStarted
  | logListening
  | serving
  | sendErr (e : String)
  | done
deriving DecidableEq, Repr

/-- The program points of the signal goroutine (serve.go 91-95): not yet started, before
`make(chan os.Signal)`, before `signal.Notify`, blocked in `<-c`, holding the formatted signal
before the send on `errs`, and finished. -/
inductive SignalPc where
  | notStarted
  | mkChan
  | notify
  | waiting
  | sendSig (v : String)
  | done
deriving DecidableEq, Repr

/-- The state of a run of the serve command. `errs` is the buffer of the channel of line 86;
`sentListener`, `sentSignal` and `received` count the sends and receives made on it. -/
structure State where
  main : MainPc
  listener : ListenerPc
  signal : SignalPc
  mux : ServeMux Route
  newUserCalled : Bool
  fatal : Option (String × String)
  errs : List String
  sigRegistered : Bool
  killed : Bool
  sentListener : Nat
  sentSignal : Nat
  received : Nat
  terminated : Option String
deriving DecidableEq, Repr

/-- The capacity of `errs`, the `2` of `make(chan error, 2)` (serve.go 86). -/
def errsCap : Nat := 2

/-- The state in which `Run` is entered: nothing registered on the default mux, no goroutine
started, no signal registered. -/
def State.init : State :=
  { main := .start, listener := .notStarted, signal := .notStarted, mux := NewServeMux Route,
    newUserCalled := false, fatal := none, errs := [], sigRegistered := false, killed := false,
    sentListener := 0, sentSignal := 0, received := 0, terminated := none }

/-- Modelled from the spec: `initFatal` is defined outside `serve.go`; by §4.5 and §7 of the
spec a startup failure is logged and "terminates the process immediately", so the call records
its two arguments and ends the process. -/
def initFatal (s : State) (err message : String) : State :=
  { s with main := .exited, fatal := some (err, message) }

/-- One statement of the main goroutine (serve.go 34-97); `none` when it is blocked or over. -/
def stepMain (env : Env) (s : State) : Option State :=
  match s.main with
  | .start =>
      match env.datastoreErr with
      | some e => some (initFatal s e "initializing datastore")
      | none => some { s with main := .bootstrap }
  | .bootstrap =>
      match env.newUserErr with
      | some e => some (initFatal { s with newUserCalled := true } e "creating bootstrap user")
      | none => some { s with main := .register, newUserCalled := true }
  | .register =>
      match registerRoutes s.mux with
      | .ok mux => some { s with main := .mkErrs, mux := mux }
      | .error _ => some { s with main := .panicked }
  | .mkErrs => some { s with main := .goListener, errs := [] }
  | .goListener => some { s with main := .goSignal, listener := .logListening }
  | .goSignal => some { s with main := .recvErrs, signal := .mkChan }
  | .recvErrs =>
      match s.errs with
      | [] => none
      | v :: rest =>
          some { s with main := .returned, errs := rest, received := s.received + 1,
                        terminated := some v }
  | .returned => none
  | .exited => none
  | .panicked => none

/-- One statement of the listener goroutine; the send on `errs` needs room in the buffer. -/
def stepListener (s : State) : Option State :=
  match s.listener with
  | .logListening => some { s with listener := .serving }
  | .sendErr e =>
      if s.errs.length < errsCap then
        some { s with listener := .done, errs := s.errs ++ [e],
                      sentListener := s.sentListener + 1 }
      else none
  | _ => none

/-- One statement of the signal goroutine; `<-c` is taken by the event `sigint`. -/
def stepSignal (s : State) : Option State :=
  match s.signal with
  | .mkChan => some { s with signal := .notify }
  | .notify => some { s with signal := .waiting, sigRegistered := true }
  | .sendSig v =>
      if s.errs.length < errsCap then
        some { s with signal := .done, errs := s.errs ++ [v],
                      sentSignal := s.sentSignal + 1 }
      else none
  | _ => none

/-- What can happen next: a statement of one of the three goroutines, the return of
`http.ListenAndServe` with an error, or the delivery of `SIGINT` to the process. -/
inductive Action where
  | main
  | listener
  | signal
  | listenReturns (e : String)
  | sigint
deriving DecidableEq, Repr

/-- The return of `http.ListenAndServe` (serve.go 89) with the error `e`: the listener
goroutine, which was inside the call, now holds the value to send. -/
def stepListenReturns (s : State) (e : String) : Option State :=
  match s.listener with
  | .serving => some { s with listener := .sendErr e }
  | _ => none

/-- The delivery of `SIGINT`. Unregistered, it ends the process (the default disposition).
Registered, it is handed to the goroutine blocked in `<-c` (serve.go 94), which formats it, and
it is dropped when no goroutine is blocked there, the channel `c` having no buffer. -/
def stepSigint (s : State) : Option State :=
  if s.sigRegistered then
    match s.signal with
    | .waiting => some { s with signal := .sendSig "interrupt" }
    | _ => some s
  else some { s with killed := true }

/-- One step of the process. A process that has ended takes no step. -/
def step (env : Env) (s : State) (a : Action) : Option State :=
  if s.killed ∨ s.main = .exited ∨ s.main = .panicked then none
  else
    match a with
    | .main => stepMain env s
    | .listener => stepListener s
    | .signal => stepSignal s
    | .listenReturns e => stepListenReturns s e
    | .sigint => stepSigint s

/-- The state after a sequence of steps, `none` when one of them cannot be taken. -/
def run (env : Env) : State → List Action → Option State
  | s, [] => some s
  | s, a :: rest =>
      match step env s a with
      | none => none
      | some s1 => run env s1 rest

/-- A state is reachable when some sequence of steps leads to it from the initial state. -/
def Reachable (env : Env) (s : State) : Prop :=
  ∃ acts, run env State.init acts = some s

/-- Whether the signal goroutine has passed `signal.Notify`. -/
def SignalPc.notified : SignalPc → Bool
  | .waiting => true
  | .sendSig _ => true
  | .done => true
  | _ => false

/-- The invariant of the runs of the serve command: how far the main goroutine must be for
a goroutine to have started, when `SIGINT` is registered, what has been sent and received on
`errs`, and what the bootstrap outcome allows. -/
structure Inv (env : Env) (s : State) : Prop where
  listener_main : s.listener ≠ .notStarted →
    s.main = .goSignal ∨ s.main = .recvErrs ∨ s.main = .returned
  signal_main : s.signal ≠ .notStarted → s.main = .recvErrs ∨ s.main = .returned
  registered : s.sigRegistered = s.signal.notified
  sentL : s.sentListener = if s.listener = .done then 1 else 0
  sentS : s.sentSignal = if s.signal = .done then 1 else 0
  balance : s.errs.length + s.received = s.sentListener + s.sentSignal
  recv : s.received = if s.main = .returned then 1 else 0
  boot : s.newUserCalled = true → env.datastoreErr = none ∧
    ∀ e, env.newUserErr = some e → s.main = .exited ∧ s.fatal = some (e, "creating bootstrap user")
  early : s.main = .start ∨ s.main = .bootstrap ∨ s.main = .exited ∨ s.main = .register →
    s.mux = NewServeMux Route
  late : s.main ≠ .start → s.main ≠ .bootstrap → s.main ≠ .exited →
    s.newUserCalled = true ∧ env.newUserErr = none
  fresh : s.main = .start ∨ s.main = .bootstrap → s.newUserCalled = false
  dsok : s.main ≠ .start → s.main ≠ .exited → env.datastoreErr = none
  spawnedL : s.main = .goSignal ∨ s.main = .recvErrs ∨ s.main = .returned →
    s.listener ≠ .notStarted
  spawnedS : s.main = .recvErrs ∨ s.main = .returned → s.signal ≠ .notStarted

/-- Collaborators that do not fail: `datastore.New` and `svc.NewUser` return nil errors. -/
def envOk : Env := { datastoreErr := none, newUserErr := none }

/-- Collaborators of a failed bootstrap: `svc.NewUser` returns an error. -/
def envBootFail : Env := { datastoreErr := none, newUserErr := some "user exists" }

/-- The steps that take the main goroutine to the receive of line 97, both goroutines started. -/
def startup : List Action := [.main, .main, .main, .main, .main, .main]

/-- A run in which the listener fails at once and `SIGINT` arrives before the coordinator
has received: both producers send. -/
def bothSendTrace : List Action :=
  startup ++ [.listener, .listenReturns "bind: address already in use", .listener,
    .signal, .signal, .sigint, .signal]

/-- The state at the end of `bothSendTrace`. -/
def bothSentState : State :=
  { main := .recvErrs, listener := .done, signal := .done, mux := serveTable,
    newUserCalled := true, fatal := none,
    errs := ["bind: address already in use", "interrupt"], sigRegistered := true,
    killed := false, sentListener := 1, sentSignal := 1, received := 0, terminated := none }

/-- The state after `bothSendTrace` and the receive of the coordinator. -/
def bothSentReceivedState : State :=
  { bothSentState with main := .returned, errs := ["interrupt"], received := 1,
                       terminated := some "bind: address already in use" }

/-- The state after the startup steps and the two first statements of the signal goroutine:
the listener goroutine is started, `signal.Notify` has been called. -/
def notifiedState : State :=
  { main := .recvErrs, listener := .logListening, signal := .waiting, mux := serveTable,
    newUserCalled := true, fatal := none, errs := [], sigRegistered := true, killed := false,
    sentListener := 0, sentSignal := 0, received := 0, terminated := none }

/-- The state in which a failed bootstrap leaves the process. -/
def bootFailedState : State :=
  initFatal { State.init with main := .bootstrap, newUserCalled := true } "user exists"
    "creating bootstrap user"

theorem canon_origin :
    CanonicalMIMEHeaderKey "Access-Control-Allow-Origin" = "Access-Control-Allow-Origin" := by
  decide

theorem canon_methods :
    CanonicalMIMEHeaderKey "Access-Control-Allow-Methods" = "Access-Control-Allow-Methods" := by
  decide

theorem canon_headers :
    CanonicalMIMEHeaderKey "Access-Control-Allow-Headers" = "Access-Control-Allow-Headers" := by
  decide

theorem corsHeaders_header (w : ResponseWriter) (k : String) :
    (corsHeaders w).header k =
      if k = "Access-Control-Allow-Headers" then some ["Origin, Content-Type"]
      else if k = "Access-Control-Allow-Methods" then some ["GET, POST, OPTIONS"]
      else if k = "Access-Control-Allow-Origin" then some ["*"]
      else w.header k := by
  simp only [corsHeaders, ResponseWriter.setHeader, Header.Set, canon_origin, canon_methods,
    canon_headers]

theorem corsHeaders_other (w : ResponseWriter) (k : String) (hk : k ∉ corsKeys) :
    (corsHeaders w).header k = w.header k := by
  simp only [corsKeys, List.mem_cons, List.mem_singleton, List.not_mem_nil, or_false,
    not_or] at hk
  rw [corsHeaders_header, if_neg hk.2.2, if_neg hk.2.1, if_neg hk.1]

theorem accessControl_eq (h : Handler) (c : Conn) (r : Request) :
    accessControl h c r =
      if r.Method = "OPTIONS" then { w := corsHeaders c.w, calls := c.calls }
      else ServeHTTP h { w := corsHeaders c.w, calls := c.calls } r := by
  rfl

/-- C1: for every inner handler and every request, the response state that `accessControl(h)`
returns (method `OPTIONS`) or hands to `h` (any other method) is the initial one after the
three assignments: each of the three CORS keys is bound to exactly one value, the fixed one,
whatever was bound before, and every other key, the status and the body are as they were. -/
theorem accessControl_sets_cors_headers (h : Handler) (c : Conn) (r : Request) :
    (accessControl h c r =
        if r.Method = "OPTIONS" then { w := corsHeaders c.w, calls := c.calls }
        else ServeHTTP h { w := corsHeaders c.w, calls := c.calls } r) ∧
      (corsHeaders c.w).header "Access-Control-Allow-Origin" = some ["*"] ∧
      (corsHeaders c.w).header "Access-Control-Allow-Methods" = some ["GET, POST, OPTIONS"] ∧
      (corsHeaders c.w).header "Access-Control-Allow-Headers" = some ["Origin, Content-Type"] ∧
      (∀ k, k ∉ corsKeys → (corsHeaders c.w).header k = c.w.header k) ∧
      (corsHeaders c.w).status = c.w.status ∧ (corsHeaders c.w).body = c.w.body := by
  refine ⟨accessControl_eq h c r, ?_, ?_, ?_, fun k hk => corsHeaders_other c.w k hk, rfl, rfl⟩
  · rw [corsHeaders_header, if_neg (by decide), if_neg (by decide), if_pos rfl]
  · rw [corsHeaders_header, if_neg (by decide), if_pos rfl]
  · rw [corsHeaders_header, if_pos rfl]

/-- C2: for every inner handler and every request whose method is exactly `OPTIONS`,
`accessControl(h)` does not call `h` (the call log is unchanged), leaves the status and the
body as they were, and changes the headers at the three CORS keys only. -/
theorem accessControl_options (h : Handler) (c : Conn) (r : Request)
    (hm : r.Method = "OPTIONS") :
    (accessControl h c r).calls = c.calls ∧
      (accessControl h c r).w.status = c.w.status ∧
      (accessControl h c r).w.body = c.w.body ∧
      (accessControl h c r).w = corsHeaders c.w ∧
      (∀ k, k ∉ corsKeys → (accessControl h c r).w.header k = c.w.header k) := by
  rw [accessControl_eq, if_pos hm]
  exact ⟨rfl, rfl, rfl, rfl, fun k hk => corsHeaders_other c.w k hk⟩

theorem accessControl_options_witness :
    (accessControl spyHandler freshConn { Method := "OPTIONS", Host := [], Path := "/api/x".data }).calls
        = [] ∧
      (accessControl spyHandler freshConn
        { Method := "OPTIONS", Host := [], Path := "/api/x".data }).w.status = none ∧
      (accessControl spyHandler freshConn
        { Method := "OPTIONS", Host := [], Path := "/api/x".data }).w.body = [] :=
  have h := accessControl_options spyHandler freshConn
    { Method := "OPTIONS", Host := [], Path := "/api/x".data } rfl
  ⟨h.1, h.2.1, h.2.2.1⟩

/-- C3: for every inner handler and every request whose method is not the string `OPTIONS`,
`accessControl(h)` calls `h` once, with the same request and with the initial response changed
at the three CORS keys only, and the final response is what `h` returns from that state. -/
theorem accessControl_delegates (h : Handler) (c : Conn) (r : Request)
    (hm : r.Method ≠ "OPTIONS") :
    (accessControl h c r).calls = c.calls ++ [(r, corsHeaders c.w)] ∧
      (accessControl h c r).w = h (corsHeaders c.w) r ∧
      (∀ k, k ∉ corsKeys → (corsHeaders c.w).header k = c.w.header k) ∧
      (corsHeaders c.w).status = c.w.status ∧ (corsHeaders c.w).body = c.w.body := by
  rw [accessControl_eq, if_neg hm]
  exact ⟨rfl, rfl, fun k hk => corsHeaders_other c.w k hk, rfl, rfl⟩

theorem accessControl_delegates_witness :
    (accessControl spyHandler freshConn { Method := "options", Host := [], Path := "/api/x".data }).calls.length
        = 1 ∧
      (accessControl spyHandler freshConn
        { Method := "options", Host := [], Path := "/api/x".data }).w.status = some 200 ∧
      (accessControl spyHandler freshConn
        { Method := "", Host := [], Path := "/api/x".data }).w.body = ['x'] :=
  have h1 := accessControl_delegates spyHandler freshConn
    { Method := "options", Host := [], Path := "/api/x".data } (by decide)
  have h2 := accessControl_delegates spyHandler freshConn
    { Method := "", Host := [], Path := "/api/x".data } (by decide)
  ⟨by rw [h1.1]; rfl, by rw [h1.2.1]; rfl, by rw [h2.2.1]; rfl⟩

theorem registerRoutes_empty : registerRoutes (NewServeMux Route) = .ok serveTable := by
  rfl

theorem pathMatch_exact (k p : List Char) (hk : k ≠ []) (hl : k.getLast? ≠ some '/') :
    pathMatch k p = (k == p) := by
  have hlen : k.length ≠ 0 := by simpa using hk
  simp [pathMatch, hlen, hl]

theorem pathMatch_slash (k p : List Char) (hl : k.getLast? = some '/') :
    pathMatch k p = true ↔ k <+: p := by
  have hk : k ≠ [] := by
    intro h; simp [h] at hl
  have hlen : k.length ≠ 0 := by simpa using hk
  simp only [pathMatch, hlen, hl, if_false, ne_eq, not_true_eq_false, Bool.and_eq_true,
    decide_eq_true_eq, beq_iff_eq]
  constructor
  · rintro ⟨_, h⟩
    exact List.prefix_iff_eq_take.mpr h.symm
  · intro h
    exact ⟨h.length_le, (List.prefix_iff_eq_take.mp h).symm⟩

theorem pathMatch_nil (p : List Char) : pathMatch [] p = false := by
  simp [pathMatch]

theorem cleanPath_head (p : List Char) : ∃ t, cleanPath p = '/' :: t := by
  by_cases hp : p = []
  · exact ⟨[], by simp [cleanPath, hp]⟩
  · simp only [cleanPath, hp, if_false, Clean]
    split_ifs <;> exact ⟨_, rfl⟩

theorem pathMatch_slash_false (k p : List Char) (hl : k.getLast? = some '/') (h : ¬ k <+: p) :
    pathMatch k p = false := by
  rw [← Bool.not_eq_true, pathMatch_slash k p hl]; exact h

theorem pathMatch_slash_true (k p : List Char) (hl : k.getLast? = some '/') (h : k <+: p) :
    pathMatch k p = true :=
  (pathMatch_slash k p hl).mpr h

theorem pathMatch_exact_false (k p : List Char) (hk : k ≠ []) (hl : k.getLast? ≠ some '/')
    (h : p ≠ k) : pathMatch k p = false := by
  rw [pathMatch_exact k p hk hl]
  simpa using fun e => h e.symm

/-- The lookup `serveTable.handler` in terms of the pattern tests that can succeed. -/
theorem serveTable_handler (host p : List Char) :
    serveTable.handler host p =
      if "/api/".data <+: p then (.user .api, "/api/".data)
      else if p = "/api".data then (.redirect "/api/".data 301, "/api/".data)
      else if p = "/version".data then (.user .version, "/version".data)
      else if "/assets/".data <+: p then (.user .assets, "/assets/".data)
      else if p = "/assets".data then (.redirect "/assets/".data 301, "/assets/".data)
      else if "/".data <+: p then (.user .frontend, "/".data)
      else (.notFound, []) := by
  by_cases h1 : "/api/".data <+: p
  · rw [if_pos h1]
    obtain ⟨x, rfl⟩ := h1
    simp [ServeMux.handler, ServeMux.muxMatch, serveTable, matchLoop, pathMatch]
  rw [if_neg h1]
  by_cases h2 : p = "/api".data
  · subst h2; rfl
  rw [if_neg h2]
  by_cases h3 : p = "/version".data
  · subst h3; rfl
  rw [if_neg h3]
  by_cases h4 : "/assets/".data <+: p
  · rw [if_pos h4]
    obtain ⟨x, rfl⟩ := h4
    simp [ServeMux.handler, ServeMux.muxMatch, serveTable, matchLoop, pathMatch]
  rw [if_neg h4]
  by_cases h5 : p = "/assets".data
  · subst h5; rfl
  rw [if_neg h5]
  have e1 := pathMatch_slash_false "/api/".data p (by decide) h1
  have e2 := pathMatch_exact_false "/api".data p (by decide) (by decide) h2
  have e3 := pathMatch_exact_false "/version".data p (by decide) (by decide) h3
  have e4 := pathMatch_slash_false "/assets/".data p (by decide) h4
  have e5 := pathMatch_exact_false "/assets".data p (by decide) (by decide) h5
  by_cases h6 : "/".data <+: p
  · rw [if_pos h6]
    have e6 := pathMatch_slash_true "/".data p (by decide) h6
    simp [ServeMux.handler, ServeMux.muxMatch, serveTable, matchLoop, e1, e2, e3, e4, e5, e6,
      pathMatch_nil]
  · rw [if_neg h6]
    have e6 := pathMatch_slash_false "/".data p (by decide) h6
    simp [ServeMux.handler, ServeMux.muxMatch, serveTable, matchLoop, e1, e2, e3, e4, e5, e6,
      pathMatch_nil]

theorem dispatch_eq (r : Request) : dispatch r = .ok (serveTable.Handler r) := by
  rfl

theorem serveTable_Handler_clean (r : Request)
    (h : r.Method = "CONNECT" ∨ cleanPath r.Path = r.Path) :
    serveTable.Handler r = serveTable.handler r.Host r.Path := by
  unfold ServeMux.Handler
  rw [if_neg]
  rintro ⟨h1, h2⟩
  rcases h with h | h
  · exact h1 h
  · exact h2 h

/-- C4 (as stated) fails: the path `/api//x` starts with `/api/`, yet a `GET` for it is
answered by the mux with a permanent redirect to `/api/x`, not by `accessControl(apiHandler)`. -/
theorem dispatch_api_unclean_redirected :
    dispatch { Method := "GET", Host := [], Path := "/api/".data ++ "/x".data }
        = .ok (.redirect "/api/x".data 301, "/api/".data) ∧
      dispatch { Method := "GET", Host := [], Path := "/api/".data ++ "/x".data }
        ≠ .ok (.user Route.api, "/api/".data) := by
  constructor
  · rfl
  · rw [dispatch_eq]
    intro h
    exact absurd (Except.ok.inj h) (by decide)

/-- C4 (amended): for every suffix `x` for which `/api/x` is in cleaned form (or the method is
`CONNECT`), the request is dispatched to the API route, which is `accessControl(apiHandler)`
and so hands on or returns the response with the three CORS headers; and when `/assets/x` is
in cleaned form (or the method is `CONNECT`), the request is dispatched to the static-asset
route, which calls the static handler on the untouched response, not through `accessControl`. -/
theorem dispatch_api_assets (method : String) (host x : List Char) (hs : Handlers) (c : Conn)
    (hapi : method = "CONNECT" ∨ cleanPath ("/api/".data ++ x) = "/api/".data ++ x)
    (hassets : method = "CONNECT" ∨ cleanPath ("/assets/".data ++ x) = "/assets/".data ++ x) :
    (dispatch { Method := method, Host := host, Path := "/api/".data ++ x }
        = .ok (.user Route.api, "/api/".data) ∧
      Route.serve hs Route.api c { Method := method, Host := host, Path := "/api/".data ++ x }
        = (if method = "OPTIONS" then { w := corsHeaders c.w, calls := c.calls }
          else ServeHTTP hs.apiHandler { w := corsHeaders c.w, calls := c.calls }
            { Method := method, Host := host, Path := "/api/".data ++ x }) ∧
      (corsHeaders c.w).header "Access-Control-Allow-Origin" = some ["*"] ∧
      (corsHeaders c.w).header "Access-Control-Allow-Methods" = some ["GET, POST, OPTIONS"] ∧
      (corsHeaders c.w).header "Access-Control-Allow-Headers" = some ["Origin, Content-Type"]) ∧
    (dispatch { Method := method, Host := host, Path := "/assets/".data ++ x }
        = .ok (.user Route.assets, "/assets/".data) ∧
      Route.serve hs Route.assets c { Method := method, Host := host, Path := "/assets/".data ++ x }
        = { w := hs.staticHandler c.w
              { Method := method, Host := host, Path := "/assets/".data ++ x },
            calls := c.calls }) := by
  refine ⟨⟨?_, rfl, ?_, ?_, ?_⟩, ?_, rfl⟩
  · rw [dispatch_eq, serveTable_Handler_clean _ hapi, serveTable_handler,
      if_pos (List.prefix_append _ _)]
  · rw [corsHeaders_header, if_neg (by decide), if_neg (by decide), if_pos rfl]
  · rw [corsHeaders_header, if_neg (by decide), if_pos rfl]
  · rw [corsHeaders_header, if_pos rfl]
  · rw [dispatch_eq, serveTable_Handler_clean _ hassets, serveTable_handler]
    simp

theorem dispatch_api_assets_witness :
    cleanPath ("/api/".data ++ "x".data) = "/api/".data ++ "x".data ∧
      cleanPath ("/assets/".data ++ "x".data) = "/assets/".data ++ "x".data ∧
      dispatch { Method := "GET", Host := [], Path := "/api/".data ++ "x".data }
        = .ok (.user Route.api, "/api/".data) ∧
      dispatch { Method := "GET", Host := [], Path := "/assets/".data ++ "x".data }
        = .ok (.user Route.assets, "/assets/".data) :=
  have h := dispatch_api_assets "GET" [] "x".data
    { apiHandler := spyHandler, versionHandler := spyHandler, staticHandler := spyHandler,
      frontendHandler := spyHandler } freshConn (Or.inr (by decide)) (Or.inr (by decide))
  ⟨by decide, by decide, h.1.1, h.2.1⟩

/-- C5 (as stated) fails: the path `/api` is not `/version` and starts with neither `/api/`
nor `/assets/`, yet the mux answers it with the implicit permanent redirect to `/api/`, not
with the frontend handler. -/
theorem dispatch_api_no_slash_redirected :
    "/api".data ≠ "/version".data ∧ ¬ "/api/".data <+: "/api".data ∧
      ¬ "/assets/".data <+: "/api".data ∧
      dispatch { Method := "GET", Host := [], Path := "/api".data }
        = .ok (.redirect "/api/".data 301, "/api/".data) ∧
      dispatch { Method := "GET", Host := [], Path := "/api".data }
        ≠ .ok (.user Route.frontend, "/".data) := by
  refine ⟨by decide, by decide, by decide, rfl, ?_⟩
  rw [dispatch_eq]
  intro h
  exact absurd (Except.ok.inj h) (by decide)

/-- C5 (amended): a request for exactly `/version` is dispatched to the version handler; the
paths `/api` and `/assets` are answered with a permanent redirect to `/api/` and `/assets/`;
and every path in cleaned form that is none of `/version`, `/api`, `/assets` and starts with
neither `/api/` nor `/assets/` is dispatched to the frontend handler. -/
theorem dispatch_version_frontend (method : String) (host p : List Char)
    (hclean : cleanPath p = p)
    (hv : p ≠ "/version".data) (ha : p ≠ "/api".data) (hs : p ≠ "/assets".data)
    (hap : ¬ "/api/".data <+: p) (hsp : ¬ "/assets/".data <+: p) :
    dispatch { Method := method, Host := host, Path := "/version".data }
        = .ok (.user Route.version, "/version".data) ∧
      dispatch { Method := method, Host := host, Path := "/api".data }
        = .ok (.redirect "/api/".data 301, "/api/".data) ∧
      dispatch { Method := method, Host := host, Path := "/assets".data }
        = .ok (.redirect "/assets/".data 301, "/assets/".data) ∧
      dispatch { Method := method, Host := host, Path := p }
        = .ok (.user Route.frontend, "/".data) := by
  refine ⟨?_, ?_, ?_, ?_⟩
  · rw [dispatch_eq, serveTable_Handler_clean _
      (Or.inr (show cleanPath "/version".data = "/version".data by decide)), serveTable_handler]
    rfl
  · rw [dispatch_eq, serveTable_Handler_clean _
      (Or.inr (show cleanPath "/api".data = "/api".data by decide)), serveTable_handler]
    rfl
  · rw [dispatch_eq, serveTable_Handler_clean _
      (Or.inr (show cleanPath "/assets".data = "/assets".data by decide)), serveTable_handler]
    rfl
  · have hroot : "/".data <+: p := by
      obtain ⟨t, ht⟩ := cleanPath_head p
      rw [hclean] at ht
      exact ⟨t, ht.symm⟩
    rw [dispatch_eq, serveTable_Handler_clean _ (Or.inr hclean), serveTable_handler,
      if_neg hap, if_neg ha, if_neg hv, if_neg hsp, if_neg hs, if_pos hroot]

theorem dispatch_version_frontend_witness :
    cleanPath "/versionx".data = "/versionx".data ∧
      dispatch { Method := "GET", Host := [], Path := "/version".data }
        = .ok (.user Route.version, "/version".data) ∧
      dispatch { Method := "GET", Host := [], Path := "/versionx".data }
        = .ok (.user Route.frontend, "/".data) :=
  have h := dispatch_version_frontend "GET" [] "/versionx".data (by decide) (by decide)
    (by decide) (by decide) (by decide) (by decide)
  ⟨by decide, h.1, h.2.2.2⟩

theorem mapGet_mapSet {H : Type} (m : List (List Char × muxEntry H)) (k k' : List Char)
    (e : muxEntry H) :
    mapGet (mapSet m k e) k' = if k = k' then some e else mapGet m k' := by
  induction m with
  | nil => simp [mapSet, mapGet]
  | cons kv rest ih =>
    obtain ⟨k0, v0⟩ := kv
    by_cases h0 : k0 = k
    · subst h0
      by_cases h1 : k0 = k' <;> simp [mapSet, mapGet, h1]
    · by_cases h1 : k0 = k'
      · subst h1
        simp [mapSet, mapGet, h0, Ne.symm h0]
      · simp [mapSet, mapGet, h0, h1, ih]

theorem isExplicit_mapSet {H : Type} (m : List (List Char × muxEntry H)) (k k' : List Char)
    (e : muxEntry H) :
    isExplicit (mapSet m k e) k' = if k = k' then e.explicit else isExplicit m k' := by
  unfold isExplicit
  rw [mapGet_mapSet]
  split_ifs <;> rfl

/-- A successful `Handle` leaves its pattern explicit and keeps every explicit pattern explicit. -/
theorem Handle_explicit {H : Type} (mux mux' : ServeMux H) (pattern : List Char)
    (handler : Option H) (hok : mux.Handle pattern handler = .ok mux') :
    isExplicit mux'.m pattern = true ∧
      ∀ k, isExplicit mux.m k = true → isExplicit mux'.m k = true := by
  unfold ServeMux.Handle at hok
  by_cases h1 : pattern = []
  · rw [if_pos h1] at hok; cases hok
  rw [if_neg h1] at hok
  cases handler with
  | none => cases hok
  | some h =>
    dsimp only at hok
    by_cases h2 : isExplicit mux.m pattern = true
    · rw [if_pos h2] at hok; cases hok
    rw [if_neg h2] at hok
    have hm := Except.ok.inj hok
    subst hm
    dsimp only
    by_cases h3 : pattern.getLast? = some '/' ∧
        ¬ isExplicit (mapSet mux.m pattern
          { explicit := true, h := .user h, pattern := pattern }) pattern.dropLast = true
    · rw [if_pos h3]
      simp only [isExplicit_mapSet]
      have h3' := h3.2
      rw [isExplicit_mapSet] at h3'
      have hne : pattern.dropLast ≠ pattern := by
        intro hd
        have hl := congrArg List.length hd
        have hpos : 0 < pattern.length := List.length_pos.mpr h1
        rw [List.length_dropLast] at hl
        omega
      refine ⟨?_, fun k hk => ?_⟩
      · simp [hne]
      · by_cases hd : pattern.dropLast = k
        · subst hd
          rw [if_neg (Ne.symm hne)] at h3'
          exact absurd hk h3'
        · rw [if_neg hd]
          split_ifs
          · rfl
          · exact hk
    · rw [if_neg h3]
      simp only [isExplicit_mapSet]
      refine ⟨by simp, fun k hk => ?_⟩
      split_ifs
      · rfl
      · exact hk

theorem registerRoutes_explicit (mux mux' : ServeMux Route)
    (hok : registerRoutes mux = .ok mux') : isExplicit mux'.m "/api/".data = true := by
  unfold registerRoutes at hok
  cases h1 : mux.Handle "/api/".data (some Route.api) with
  | error e => rw [h1] at hok; cases hok
  | ok m1 =>
    rw [h1] at hok
    cases h2 : m1.Handle "/version".data (some Route.version) with
    | error e => simp only [bind, Except.bind] at hok; rw [h2] at hok; cases hok
    | ok m2 =>
      simp only [bind, Except.bind] at hok; rw [h2] at hok
      cases h3 : m2.Handle "/assets/".data (some Route.assets) with
      | error e => simp only at hok; rw [h3] at hok; cases hok
      | ok m3 =>
        simp only at hok; rw [h3] at hok
        simp only at hok
        exact (Handle_explicit m3 mux' _ _ hok).2 _
          ((Handle_explicit m2 m3 _ _ h3).2 _
            ((Handle_explicit m1 m2 _ _ h2).2 _ (Handle_explicit mux m1 _ _ h1).1))

/-- C10 (as stated) fails: performing the four registrations of the serve command a second
time, on the mux that holds the first four, does not succeed: the registration of `/api/`
panics. -/
theorem registerRoutes_twice_panics :
    (registerRoutes (NewServeMux Route) >>= registerRoutes)
      = .error "http: multiple registrations for /api/" := by
  rfl

/-- C10 (amended): on the empty mux the four registrations succeed and the dispatch they give is
a function of the request alone (the one of `serveTable`); on any mux on which they have
succeeded once, performing them again fails: the registration of `/api/` panics with
`multiple registrations`. -/
theorem registerRoutes_second_build (mux mux' : ServeMux Route)
    (hok : registerRoutes mux = .ok mux') :
    registerRoutes (NewServeMux Route) = .ok serveTable ∧
      (∀ r, dispatch r = .ok (serveTable.Handler r)) ∧
      registerRoutes mux' = .error "http: multiple registrations for /api/" := by
  refine ⟨rfl, fun r => rfl, ?_⟩
  have he := registerRoutes_explicit mux mux' hok
  unfold registerRoutes
  have : mux'.Handle "/api/".data (some Route.api)
      = .error "http: multiple registrations for /api/" := by
    unfold ServeMux.Handle
    rw [if_neg (by decide)]
    simp only [he, if_true]
    rfl
  rw [this]
  rfl

theorem registerRoutes_second_build_witness :
    registerRoutes (NewServeMux Route) = .ok serveTable ∧
      registerRoutes serveTable = .error "http: multiple registrations for /api/" :=
  ⟨rfl, (registerRoutes_second_build (NewServeMux Route) serveTable rfl).2.2⟩

theorem inv_init (env : Env) : Inv env State.init := by
  constructor <;> simp [State.init, SignalPc.notified]

theorem stepMain_inv (env : Env) (s s' : State) (h : Inv env s)
    (hs : stepMain env s = some s') : Inv env s' := by
  obtain ⟨h1, h2, h3, h4, h5, h6, h7, h8, h9, h10, h11, h12, h13, h14⟩ := h
  unfold stepMain at hs
  cases hm : s.main <;> rw [hm] at hs <;> simp only at hs <;>
    simp [hm] at h1 h2 h3 h4 h5 h6 h7 h8 h9 h10 h11 h12 h13 h14
  case start =>
    cases hd : env.datastoreErr <;> rw [hd] at hs <;> simp only at hs <;>
      obtain rfl := Option.some.inj hs <;>
      constructor <;> simp_all [initFatal]
  case bootstrap =>
    cases hd : env.newUserErr <;> rw [hd] at hs <;> simp only at hs <;>
      obtain rfl := Option.some.inj hs <;>
      constructor <;> simp_all [initFatal]
  case register =>
    cases hd : registerRoutes s.mux <;> rw [hd] at hs <;> simp only at hs <;>
      obtain rfl := Option.some.inj hs <;> clear hd <;>
      constructor <;> simp_all
  case mkErrs =>
    obtain rfl := Option.some.inj hs
    constructor <;> simp_all
  case goListener =>
    obtain rfl := Option.some.inj hs
    constructor <;> simp_all
  case goSignal =>
    obtain rfl := Option.some.inj hs
    constructor <;> simp_all [SignalPc.notified]
  case recvErrs =>
    cases hd : s.errs <;> rw [hd] at hs <;> simp only at hs
    · cases hs
    · obtain rfl := Option.some.inj hs
      constructor <;> simp_all
  all_goals cases hs

theorem stepListener_inv (env : Env) (s s' : State) (h : Inv env s)
    (hs : stepListener s = some s') : Inv env s' := by
  obtain ⟨h1, h2, h3, h4, h5, h6, h7, h8, h9, h10, h11, h12, h13, h14⟩ := h
  unfold stepListener at hs
  cases hl : s.listener <;> rw [hl] at hs <;> simp only at hs <;>
    simp [hl] at h1 h2 h3 h4 h5 h6 h7 h8 h9 h10 h11 h12 h13 h14
  case logListening =>
    obtain rfl := Option.some.inj hs
    constructor <;> simp_all
  case sendErr e =>
    split_ifs at hs
    obtain rfl := Option.some.inj hs
    constructor <;> simp_all
    omega
  all_goals cases hs

theorem stepSignal_inv (env : Env) (s s' : State) (h : Inv env s)
    (hs : stepSignal s = some s') : Inv env s' := by
  obtain ⟨h1, h2, h3, h4, h5, h6, h7, h8, h9, h10, h11, h12, h13, h14⟩ := h
  unfold stepSignal at hs
  cases hl : s.signal <;> rw [hl] at hs <;> simp only at hs <;>
    simp [hl] at h1 h2 h3 h4 h5 h6 h7 h8 h9 h10 h11 h12 h13 h14
  case mkChan =>
    obtain rfl := Option.some.inj hs
    constructor <;> simp_all [SignalPc.notified]
  case notify =>
    obtain rfl := Option.some.inj hs
    constructor <;> simp_all [SignalPc.notified]
  case sendSig v =>
    split_ifs at hs
    obtain rfl := Option.some.inj hs
    constructor <;> simp_all [SignalPc.notified]
    omega
  all_goals cases hs

theorem stepListenReturns_inv (env : Env) (s s' : State) (e : String) (h : Inv env s)
    (hs : stepListenReturns s e = some s') : Inv env s' := by
  obtain ⟨h1, h2, h3, h4, h5, h6, h7, h8, h9, h10, h11, h12, h13, h14⟩ := h
  unfold stepListenReturns at hs
  cases hl : s.listener <;> rw [hl] at hs <;> simp only at hs
  case serving =>
    obtain rfl := Option.some.inj hs
    constructor <;> simp_all
  all_goals cases hs

theorem stepSigint_inv (env : Env) (s s' : State) (h : Inv env s)
    (hs : stepSigint s = some s') : Inv env s' := by
  unfold stepSigint at hs
  by_cases hr : s.sigRegistered = true
  · rw [if_pos hr] at hs
    cases hl : s.signal with
    | waiting =>
      rw [hl] at hs
      obtain ⟨h1, h2, h3, h4, h5, h6, h7, h8, h9, h10, h11, h12, h13, h14⟩ := h
      obtain rfl := Option.some.inj hs
      constructor <;> simp_all [SignalPc.notified]
    | _ =>
      rw [hl] at hs
      obtain rfl := Option.some.inj hs
      exact h
  · rw [if_neg hr] at hs
    obtain rfl := Option.some.inj hs
    obtain ⟨h1, h2, h3, h4, h5, h6, h7, h8, h9, h10, h11, h12, h13, h14⟩ := h
    constructor <;> assumption

theorem step_inv (env : Env) (s s' : State) (a : Action) (h : Inv env s)
    (hs : step env s a = some s') : Inv env s' := by
  unfold step at hs
  by_cases hdead : s.killed = true ∨ s.main = .exited ∨ s.main = .panicked
  · rw [if_pos hdead] at hs; cases hs
  rw [if_neg hdead] at hs
  cases a with
  | main => exact stepMain_inv env s s' h hs
  | listener => exact stepListener_inv env s s' h hs
  | signal => exact stepSignal_inv env s s' h hs
  | listenReturns e => exact stepListenReturns_inv env s s' e h hs
  | sigint => exact stepSigint_inv env s s' h hs

theorem run_inv (env : Env) (acts : List Action) :
    ∀ s s', Inv env s → run env s acts = some s' → Inv env s' := by
  induction acts with
  | nil =>
    intro s s' h hr
    obtain rfl := Option.some.inj hr
    exact h
  | cons a rest ih =>
    intro s s' h hr
    unfold run at hr
    cases hst : step env s a with
    | none => rw [hst] at hr; cases hr
    | some s1 =>
      rw [hst] at hr
      exact ih s1 s' (step_inv env s s1 a h hst) hr

theorem reachable_inv (env : Env) (s : State) (h : Reachable env s) : Inv env s := by
  obtain ⟨acts, hr⟩ := h
  exact run_inv env acts State.init s (inv_init env) hr

/-- C6: in every reachable state each producer has sent at most one value on `errs`, the
buffer of `errs` holds at most its capacity 2, and a producer that stands at its send is not
blocked (its send step can be taken), whatever the coordinator has received. -/
theorem errs_send_never_blocks (env : Env) (s : State) (h : Reachable env s) :
    s.sentListener ≤ 1 ∧ s.sentSignal ≤ 1 ∧ s.errs.length ≤ errsCap ∧
      (∀ e, s.listener = .sendErr e → (stepListener s).isSome = true) ∧
      (∀ v, s.signal = .sendSig v → (stepSignal s).isSome = true) := by
  have hi := reachable_inv env s h
  have h4 := hi.sentL
  have h5 := hi.sentS
  have h6 := hi.balance
  have hL : s.sentListener ≤ 1 := by rw [h4]; split_ifs <;> omega
  have hS : s.sentSignal ≤ 1 := by rw [h5]; split_ifs <;> omega
  refine ⟨hL, hS, by unfold errsCap; omega, ?_, ?_⟩
  · intro e he
    have h0 : s.sentListener = 0 := by rw [h4, he]; rfl
    have hlt : s.errs.length < errsCap := by unfold errsCap; omega
    simp [stepListener, he, hlt]
  · intro v hv
    have h0 : s.sentSignal = 0 := by rw [h5, hv]; rfl
    have hlt : s.errs.length < errsCap := by unfold errsCap; omega
    simp [stepSignal, hv, hlt]

theorem errs_send_never_blocks_witness :
    run envOk State.init bothSendTrace = some bothSentState ∧
      bothSentState.sentListener ≤ 1 ∧ bothSentState.sentSignal ≤ 1 ∧
      bothSentState.errs.length ≤ errsCap :=
  have h := errs_send_never_blocks envOk bothSentState ⟨bothSendTrace, rfl⟩
  ⟨rfl, h.1, h.2.1, h.2.2.1⟩

/-- C7: when `svc.NewUser` returns the error `e` then, `datastore.New` having succeeded, the
second step of the main goroutine is the call `initFatal(e, "creating bootstrap user")`, which
ends the process; in every reachable state no route is registered, the listener goroutine is
not started (so `http.ListenAndServe` is not called), and once `NewUser` has been called the
process has exited through that `initFatal`. Conversely, under any collaborators, a state in
which the listener goroutine is started has `NewUser` called and returned without error. -/
theorem bootstrap_failure_prevents_listener (env : Env) (e : String) (s : State)
    (hu : env.newUserErr = some e) (h : Reachable env s) :
    (env.datastoreErr = none →
      run env State.init [.main, .main]
        = some (initFatal { State.init with main := .bootstrap, newUserCalled := true } e
            "creating bootstrap user")) ∧
      s.mux = NewServeMux Route ∧ s.listener = .notStarted ∧ s.signal = .notStarted ∧
      (s.newUserCalled = true →
        s.main = .exited ∧ s.fatal = some (e, "creating bootstrap user")) ∧
      (∀ env1 s1, Reachable env1 s1 → s1.listener ≠ .notStarted →
        s1.newUserCalled = true ∧ env1.newUserErr = none) := by
  have hi := reachable_inv env s h
  have hmain : s.main = .start ∨ s.main = .bootstrap ∨ s.main = .exited := by
    by_contra hc
    simp only [not_or] at hc
    have := (hi.late hc.1 hc.2.1 hc.2.2).2
    rw [hu] at this
    cases this
  refine ⟨?_, ?_, ?_, ?_, ?_, ?_⟩
  · intro hds
    simp [run, step, stepMain, State.init, hds, hu]
  · apply hi.early
    rcases hmain with h1 | h1 | h1 <;> simp [h1]
  · by_contra hc
    have := hi.listener_main hc
    rcases hmain with h1 | h1 | h1 <;> simp [h1] at this
  · by_contra hc
    have := hi.signal_main hc
    rcases hmain with h1 | h1 | h1 <;> simp [h1] at this
  · intro hc
    exact (hi.boot hc).2 e hu
  · intro env1 s1 h1 hl
    have hi1 := reachable_inv env1 s1 h1
    have hm := hi1.listener_main hl
    apply hi1.late <;> rcases hm with h2 | h2 | h2 <;> simp [h2]

theorem bootstrap_failure_prevents_listener_witness :
    envBootFail.newUserErr = some "user exists" ∧
      run envBootFail State.init [.main, .main] = some bootFailedState ∧
      bootFailedState.mux = NewServeMux Route ∧ bootFailedState.listener = .notStarted ∧
      bootFailedState.main = .exited ∧
      bootFailedState.fatal = some ("user exists", "creating bootstrap user") :=
  have h := bootstrap_failure_prevents_listener envBootFail "user exists" bootFailedState rfl
    ⟨[Action.main, Action.main], rfl⟩
  ⟨rfl, h.1 rfl, h.2.1, h.2.2.1, (h.2.2.2.2.1 rfl).1, (h.2.2.2.2.1 rfl).2⟩

/-- C8 (as stated) fails: after five statements of the main goroutine and one of the listener
goroutine, the listener goroutine is inside `http.ListenAndServe` while `signal.Notify` has
not been called. -/
theorem listener_serving_before_notify :
    (run envOk State.init [.main, .main, .main, .main, .main, .listener]).map
        (fun s => (s.listener, s.signal, s.sigRegistered))
      = some (.serving, .notStarted, false) := by
  rfl

/-- C8 (amended): `SIGINT` is registered by the signal goroutine, which the main goroutine
starts after the listener goroutine: in every reachable state `SIGINT` is registered exactly
when the signal goroutine has passed `signal.Notify`, and then the listener goroutine has
already been started. -/
theorem notify_after_listener_start (env : Env) (s : State) (h : Reachable env s) :
    s.sigRegistered = s.signal.notified ∧
      (s.sigRegistered = true → s.signal ≠ .notStarted ∧ s.listener ≠ .notStarted) ∧
      (s.signal ≠ .notStarted → s.listener ≠ .notStarted) := by
  have hi := reachable_inv env s h
  have hsl : s.signal ≠ .notStarted → s.listener ≠ .notStarted := by
    intro hc
    apply hi.spawnedL
    rcases hi.signal_main hc with h1 | h1 <;> simp [h1]
  have hns : s.sigRegistered = true → s.signal ≠ .notStarted := by
    intro hr hc
    have := hi.registered
    rw [hr, hc] at this
    cases this
  exact ⟨hi.registered, fun hr => ⟨hns hr, hsl (hns hr)⟩, hsl⟩

theorem notify_after_listener_start_witness :
    run envOk State.init (startup ++ [.signal, .signal]) = some notifiedState ∧
      notifiedState.sigRegistered = true ∧ notifiedState.listener ≠ .notStarted :=
  have h := notify_after_listener_start envOk notifiedState ⟨startup ++ [Action.signal, Action.signal], rfl⟩
  ⟨rfl, rfl, (h.2.1 rfl).2⟩

/-- C9 (as stated) fails: when the listener fails at once and `SIGINT` arrives before the
coordinator has received, both producers send, so two values have been sent on `errs`; after
the single receive of the coordinator the second one stays in the buffer. -/
theorem two_values_sent_on_errs :
    (run envOk State.init bothSendTrace).map
        (fun s => (s.sentListener + s.sentSignal, s.received, s.errs))
      = some (2, 0, ["bind: address already in use", "interrupt"]) ∧
    (run envOk State.init (bothSendTrace ++ [.main])).map
        (fun s => (s.sentListener + s.sentSignal, s.received, s.errs))
      = some (2, 1, ["interrupt"]) := by
  constructor <;> rfl

/-- C9 (amended): in every reachable state the coordinator has received from `errs` at most
once, and exactly once when it is past line 97; each producer has sent at most once, so at most
two values have been sent; what was received was sent before, and the values sent and not
received are the ones in the buffer. -/
theorem at_most_one_received (env : Env) (s : State) (h : Reachable env s) :
    s.received ≤ 1 ∧ (s.main = .returned ↔ s.received = 1) ∧
      s.sentListener ≤ 1 ∧ s.sentSignal ≤ 1 ∧ s.sentListener + s.sentSignal ≤ 2 ∧
      s.received ≤ s.sentListener + s.sentSignal ∧
      s.errs.length + s.received = s.sentListener + s.sentSignal := by
  have hi := reachable_inv env s h
  have h4 := hi.sentL
  have h5 := hi.sentS
  have h6 := hi.balance
  have h7 := hi.recv
  have hL : s.sentListener ≤ 1 := by rw [h4]; split_ifs <;> omega
  have hS : s.sentSignal ≤ 1 := by rw [h5]; split_ifs <;> omega
  have hR : s.received ≤ 1 := by rw [h7]; split_ifs <;> omega
  refine ⟨hR, ?_, hL, hS, by omega, by omega, h6⟩
  by_cases hm : s.main = .returned
  · rw [if_pos hm] at h7
    exact ⟨fun _ => h7, fun _ => hm⟩
  · rw [if_neg hm] at h7
    constructor
    · intro hc; exact absurd hc hm
    · intro hc; omega

theorem at_most_one_received_witness :
    run envOk State.init (bothSendTrace ++ [.main]) = some bothSentReceivedState ∧
      bothSentReceivedState.received = 1 ∧
      bothSentReceivedState.sentListener + bothSentReceivedState.sentSignal ≤ 2 :=
  have h := at_most_one_received envOk bothSentReceivedState ⟨bothSendTrace ++ [Action.main], rfl⟩
  ⟨rfl, h.2.1.mp rfl, h.2.2.2.2.1⟩

end Serve
